import Mathlib

/-!
Verification of the `zip` archive reader library (a read-only ZIP parser and
extractor, source files `reader.rs`, `format.rs`, `fileinfo.rs`, `error.rs`,
`maybe_utf8.rs`).  The Rust code is embedded shallowly: byte streams are
`List Nat` consumed from the front, fallible reads return `Option`/custom
result types, and Rust panics (`assert!`, `panic!`) are modelled by an
explicit `fatal` outcome.
-/

set_option maxHeartbeats 1000000

/-- The closed error taxonomy of `error.rs` (`ZipError`).  The payload of
`IoError` is dropped; only the error kind matters here. -/
inductive ZipError where
  | ioError
  | notAZipFile
  | crcError
  | decompressionFailure
  | fileNotFoundInArchive
  | invalidSignature (magic : Nat)
  | nonUtf8Field
  | tooLongField
deriving DecidableEq, Repr

/-- Checks one UTF-8 continuation byte (`0x80..0xBF`), as Rust's
`String::from_utf8` validation does. -/
def utf8Cont (b : Nat) : Bool := 0x80 ≤ b && b ≤ 0xBF

/-- UTF-8 validity of a byte sequence, following the RFC 3629 table used by
Rust's `String::from_utf8`. -/
def validUtf8 : List Nat → Bool
  | [] => true
  | b :: rest =>
    if b ≤ 0x7F then validUtf8 rest
    else if 0xC2 ≤ b && b ≤ 0xDF then
      match rest with
      | c :: rest2 => utf8Cont c && validUtf8 rest2
      | _ => false
    else if b = 0xE0 then
      match rest with
      | c :: d :: rest2 => (0xA0 ≤ c && c ≤ 0xBF) && utf8Cont d && validUtf8 rest2
      | _ => false
    else if 0xE1 ≤ b && b ≤ 0xEC then
      match rest with
      | c :: d :: rest2 => utf8Cont c && utf8Cont d && validUtf8 rest2
      | _ => false
    else if b = 0xED then
      match rest with
      | c :: d :: rest2 => (0x80 ≤ c && c ≤ 0x9F) && utf8Cont d && validUtf8 rest2
      | _ => false
    else if 0xEE ≤ b && b ≤ 0xEF then
      match rest with
      | c :: d :: rest2 => utf8Cont c && utf8Cont d && validUtf8 rest2
      | _ => false
    else if b = 0xF0 then
      match rest with
      | c :: d :: e :: rest2 =>
          (0x90 ≤ c && c ≤ 0xBF) && utf8Cont d && utf8Cont e && validUtf8 rest2
      | _ => false
    else if 0xF1 ≤ b && b ≤ 0xF3 then
      match rest with
      | c :: d :: e :: rest2 => utf8Cont c && utf8Cont d && utf8Cont e && validUtf8 rest2
      | _ => false
    else if b = 0xF4 then
      match rest with
      | c :: d :: e :: rest2 =>
          (0x80 ≤ c && c ≤ 0x8F) && utf8Cont d && utf8Cont e && validUtf8 rest2
      | _ => false
    else false

/-- `maybe_utf8.rs` `MaybeUTF8`: a tagged union of valid text (`UTF8(String)`,
represented by the string's byte sequence) and raw bytes (`Bytes(Vec<u8>)`). -/
inductive MaybeUtf8 where
  | text : List Nat → MaybeUtf8
  | bytes : List Nat → MaybeUtf8
deriving DecidableEq, Repr

/-- `MaybeUTF8::as_bytes`: the underlying byte content of either variant. -/
def MaybeUtf8.asBytes : MaybeUtf8 → List Nat
  | .text b => b
  | .bytes b => b

/-- `MaybeUTF8::as_str`: the text view.  For the `UTF8` variant Rust returns the
string directly (Rust strings are valid UTF-8 by construction); for the `Bytes`
variant it re-validates with `str::from_utf8`. -/
def MaybeUtf8.asStr : MaybeUtf8 → Option (List Nat)
  | .text b => some b
  | .bytes b => if validUtf8 b then some b else none

/-- `MaybeUTF8::len`: byte length of the content. -/
def MaybeUtf8.len (m : MaybeUtf8) : Nat := m.asBytes.length

/-- `MaybeUTF8`'s `PartialEq`: equality compares `as_bytes`, not the variant tag. -/
def MaybeUtf8.byteEq (a b : MaybeUtf8) : Prop := a.asBytes = b.asBytes

/-- `Reader::read_le_u16`: consume two bytes, little-endian. -/
def readLeU16 : List Nat → Option (Nat × List Nat)
  | a :: b :: rest => some (a + 256 * b, rest)
  | _ => none

/-- `Reader::read_le_u32`: consume four bytes, little-endian. -/
def readLeU32 : List Nat → Option (Nat × List Nat)
  | a :: b :: c :: d :: rest =>
      some (a + 256 * b + 65536 * c + 16777216 * d, rest)
  | _ => none

/-- `Reader::read_exact(n)`: consume exactly `n` bytes or fail. -/
def readExact (n : Nat) (l : List Nat) : Option (List Nat × List Nat) :=
  if n ≤ l.length then some (l.take n, l.drop n) else none

/-- `Writer::write_le_u16`: the two little-endian bytes of a 16-bit value. -/
def writeLeU16 (n : Nat) : List Nat := [n % 256, n / 256 % 256]

/-- `Writer::write_le_u32`: the four little-endian bytes of a 32-bit value. -/
def writeLeU32 (n : Nat) : List Nat :=
  [n % 256, n / 256 % 256, n / 65536 % 256, n / 16777216 % 256]

/-- `format.rs` `ensure_u16_field_length`: `len.to_u16()`, i.e. `some len` when
the length fits in 16 bits and `TooLongField` otherwise. -/
def ensure_u16_field_length (len : Nat) : Option Nat :=
  if len ≤ 65535 then some len else none

/-- `format.rs` `read_maybe_utf8`: read `len` bytes; when the UTF-8 flag is set,
validate and produce the text variant (failing with `NonUTF8Field`), otherwise
produce the raw-bytes variant. -/
def read_maybe_utf8 (shouldBeUtf8 : Bool) (len : Nat) (l : List Nat) :
    Except ZipError (MaybeUtf8 × List Nat) :=
  match readExact len l with
  | none => .error .ioError
  | some (v, rest) =>
    if shouldBeUtf8 then
      if validUtf8 v then .ok (.text v, rest) else .error .nonUtf8Field
    else .ok (.bytes v, rest)

/-- `format.rs` `write_maybe_utf8`: when the UTF-8 flag is set the value must
have a text view (`as_str`), else the raw bytes are written.  Returns the bytes
emitted, or `none` for the `NonUTF8Field` failure (nothing emitted). -/
def write_maybe_utf8 (shouldBeUtf8 : Bool) (s : MaybeUtf8) : Option (List Nat) :=
  if shouldBeUtf8 then s.asStr else some s.asBytes

/-- `format.rs` `MsdosDateTime`: a packed 16+16 bit MS-DOS timestamp. -/
structure MsdosDateTime where
  time : Nat
  date : Nat
deriving DecidableEq, Repr

/-- `MsdosDateTime::zero`. -/
def MsdosDateTime.zero : MsdosDateTime := { time := 0, date := 0 }

/-- `MsdosDateTime::year`. -/
def MsdosDateTime.year (m : MsdosDateTime) : Nat := ((m.date >>> 9) &&& 0b1111111) + 1980

/-- `MsdosDateTime::month`. -/
def MsdosDateTime.month (m : MsdosDateTime) : Nat := (m.date >>> 5) &&& 0b1111

/-- `MsdosDateTime::day`. -/
def MsdosDateTime.day (m : MsdosDateTime) : Nat := m.date &&& 0b11111

/-- `MsdosDateTime::hour`. -/
def MsdosDateTime.hour (m : MsdosDateTime) : Nat := (m.time >>> 11) &&& 0b11111

/-- `MsdosDateTime::minute`. -/
def MsdosDateTime.minute (m : MsdosDateTime) : Nat := (m.time >>> 5) &&& 0b111111

/-- `MsdosDateTime::second`. -/
def MsdosDateTime.second (m : MsdosDateTime) : Nat := (m.time <<< 1) &&& 0b111111

/-- `MsdosDateTime::to_tuple`: `(year, month, day, hour, minute, second)`. -/
def MsdosDateTime.to_tuple (m : MsdosDateTime) : Nat × Nat × Nat × Nat × Nat × Nat :=
  (m.year, m.month, m.day, m.hour, m.minute, m.second)

/-- `MsdosDateTime::read`: time word, then date word. -/
def MsdosDateTime.readBytes (l : List Nat) : Option (MsdosDateTime × List Nat) :=
  match readLeU16 l with
  | none => none
  | some (t, l1) =>
    match readLeU16 l1 with
    | none => none
    | some (d, l2) => some ({ time := t, date := d }, l2)

/-- `MsdosDateTime::write`: time word, then date word. -/
def MsdosDateTime.writeBytes (m : MsdosDateTime) : List Nat :=
  writeLeU16 m.time ++ writeLeU16 m.date

/-- Local File Header signature constant (`format.rs` `LFH_SIGNATURE`). -/
def LFH_SIGNATURE : Nat := 0x04034b50

/-- Central Directory Header signature constant (`format.rs` `CDH_SIGNATURE`). -/
def CDH_SIGNATURE : Nat := 0x02014b50

/-- End of Central Directory Record signature constant (`format.rs`
`EOCDR_SIGNATURE`). -/
def EOCDR_SIGNATURE : Nat := 0x06054b50

/-- `format.rs` `LocalFileHeader`. -/
structure LocalFileHeader where
  version_needed_to_extract : Nat
  general_purpose_bit_flag : Nat
  compression_method : Nat
  last_modified_datetime : MsdosDateTime
  crc32 : Nat
  compressed_size : Nat
  uncompressed_size : Nat
  file_name : MaybeUtf8
  extra_field : List Nat
deriving DecidableEq, Repr

/-- `LocalFileHeader::is_encrypted` (flag bit `0x1`). -/
def LocalFileHeader.is_encrypted (h : LocalFileHeader) : Bool :=
  (h.general_purpose_bit_flag &&& 1) != 0

/-- `LocalFileHeader::has_data_descriptor` (flag bit `0x8`). -/
def LocalFileHeader.has_data_descriptor (h : LocalFileHeader) : Bool :=
  (h.general_purpose_bit_flag &&& 8) != 0

/-- `LocalFileHeader::is_compressed_patched_data` (flag bit `0x20`). -/
def LocalFileHeader.is_compressed_patched_data (h : LocalFileHeader) : Bool :=
  (h.general_purpose_bit_flag &&& 32) != 0

/-- `LocalFileHeader::uses_strong_encryption` (flag bit `0x40`). -/
def LocalFileHeader.uses_strong_encryption (h : LocalFileHeader) : Bool :=
  (h.general_purpose_bit_flag &&& 64) != 0

/-- `LocalFileHeader::has_utf8_name` (flag bit `0x800`). -/
def LocalFileHeader.has_utf8_name (h : LocalFileHeader) : Bool :=
  (h.general_purpose_bit_flag &&& 2048) != 0

/-- `LocalFileHeader::uses_masking` (flag bit `0x2000`). -/
def LocalFileHeader.uses_masking (h : LocalFileHeader) : Bool :=
  (h.general_purpose_bit_flag &&& 8192) != 0

/-- `LocalFileHeader::total_size`: 30 fixed bytes plus name and extra field. -/
def LocalFileHeader.total_size (h : LocalFileHeader) : Nat :=
  30 + h.file_name.len + h.extra_field.length

/-- Result of a record parse that may also abort the process: `ok` carries the
record and the remaining stream, `err` a recoverable `ZipError`, and `fatal`
models a Rust panic (a failed `assert!`). -/
inductive PResult (α : Type) where
  | ok : α → List Nat → PResult α
  | err : ZipError → PResult α
  | fatal : PResult α
deriving DecidableEq, Repr

/-- Binds a primitive read into a `PResult` computation, turning end-of-stream
into the wrapped `IoError`. -/
def ioStep {α β : Type} (r : Option (α × List Nat)) (k : α → List Nat → PResult β) :
    PResult β :=
  match r with
  | none => .err .ioError
  | some (a, rest) => k a rest

/-- `LocalFileHeader::read` from `format.rs`: signature check, fixed fields,
variable fields, then the `assert!`s rejecting unsupported flag combinations
(modelled as `fatal`). -/
def LocalFileHeader.readBytes (l : List Nat) : PResult LocalFileHeader :=
  ioStep (readLeU32 l) fun magic l =>
  if magic = LFH_SIGNATURE then
    ioStep (readLeU16 l) fun version l =>
    ioStep (readLeU16 l) fun flags l =>
    ioStep (readLeU16 l) fun method l =>
    ioStep (MsdosDateTime.readBytes l) fun dt l =>
    ioStep (readLeU32 l) fun crc l =>
    ioStep (readLeU32 l) fun csize l =>
    ioStep (readLeU32 l) fun usize l =>
    ioStep (readLeU16 l) fun nameLen l =>
    ioStep (readLeU16 l) fun extraLen l =>
    match read_maybe_utf8 ((flags &&& 2048) != 0) nameLen l with
    | .error e => .err e
    | .ok (name, l) =>
      ioStep (readExact extraLen l) fun extra l =>
      let h : LocalFileHeader :=
        { version_needed_to_extract := version
          general_purpose_bit_flag := flags
          compression_method := method
          last_modified_datetime := dt
          crc32 := crc
          compressed_size := csize
          uncompressed_size := usize
          file_name := name
          extra_field := extra }
      if h.is_encrypted then .fatal
      else if h.is_compressed_patched_data then .fatal
      else if h.has_data_descriptor then .fatal
      else if h.uses_strong_encryption then .fatal
      else if h.uses_masking then .fatal
      else .ok h l
  else .err (.invalidSignature magic)

/-- `LocalFileHeader::write` from `format.rs`: returns the bytes the sink has
received together with the error, if any.  The fixed fields are emitted before
the 16-bit length checks run, exactly as in the source. -/
def LocalFileHeader.writeBytes (h : LocalFileHeader) : List Nat × Option ZipError :=
  let pre :=
    writeLeU32 LFH_SIGNATURE ++
    writeLeU16 h.version_needed_to_extract ++
    writeLeU16 h.general_purpose_bit_flag ++
    writeLeU16 h.compression_method ++
    h.last_modified_datetime.writeBytes ++
    writeLeU32 h.crc32 ++
    writeLeU32 h.compressed_size ++
    writeLeU32 h.uncompressed_size
  match ensure_u16_field_length h.file_name.len with
  | none => (pre, some .tooLongField)
  | some nameLen =>
    match ensure_u16_field_length h.extra_field.length with
    | none => (pre ++ writeLeU16 nameLen, some .tooLongField)
    | some extraLen =>
      let out := pre ++ writeLeU16 nameLen ++ writeLeU16 extraLen
      match write_maybe_utf8 h.has_utf8_name h.file_name with
      | none => (out, some .nonUtf8Field)
      | some nameBytes => (out ++ nameBytes ++ h.extra_field, none)

/-- `format.rs` `CentralDirectoryHeader`. -/
structure CentralDirectoryHeader where
  version_made_by : Nat
  version_needed_to_extract : Nat
  general_purpose_bit_flag : Nat
  compression_method : Nat
  last_modified_datetime : MsdosDateTime
  crc32 : Nat
  compressed_size : Nat
  uncompressed_size : Nat
  disk_number_start : Nat
  internal_file_attributes : Nat
  external_file_attributes : Nat
  relative_offset_of_local_header : Nat
  file_name : MaybeUtf8
  extra_field : List Nat
  file_comment : MaybeUtf8
deriving DecidableEq, Repr

/-- `CentralDirectoryHeader::is_encrypted` (flag bit `0x1`). -/
def CentralDirectoryHeader.is_encrypted (h : CentralDirectoryHeader) : Bool :=
  (h.general_purpose_bit_flag &&& 1) != 0

/-- `CentralDirectoryHeader::has_utf8_name` (flag bit `0x800`). -/
def CentralDirectoryHeader.has_utf8_name (h : CentralDirectoryHeader) : Bool :=
  (h.general_purpose_bit_flag &&& 2048) != 0

/-- `CentralDirectoryHeader::total_size`: 46 fixed bytes plus name, extra field
and comment. -/
def CentralDirectoryHeader.total_size (h : CentralDirectoryHeader) : Nat :=
  46 + h.file_name.len + h.extra_field.length + h.file_comment.len

/-- `CentralDirectoryHeader::read` from `format.rs`.  No flag `assert!`s here
(the source marks the check as TODO), so the result is an `Except`. -/
def CentralDirectoryHeader.readBytes (l : List Nat) :
    Except ZipError (CentralDirectoryHeader × List Nat) :=
  match readLeU32 l with
  | none => .error .ioError
  | some (magic, l) =>
  if magic = CDH_SIGNATURE then
    match readLeU16 l with
    | none => .error .ioError
    | some (vmb, l) =>
    match readLeU16 l with
    | none => .error .ioError
    | some (vne, l) =>
    match readLeU16 l with
    | none => .error .ioError
    | some (flags, l) =>
    match readLeU16 l with
    | none => .error .ioError
    | some (method, l) =>
    match MsdosDateTime.readBytes l with
    | none => .error .ioError
    | some (dt, l) =>
    match readLeU32 l with
    | none => .error .ioError
    | some (crc, l) =>
    match readLeU32 l with
    | none => .error .ioError
    | some (csize, l) =>
    match readLeU32 l with
    | none => .error .ioError
    | some (usize, l) =>
    match readLeU16 l with
    | none => .error .ioError
    | some (nameLen, l) =>
    match readLeU16 l with
    | none => .error .ioError
    | some (extraLen, l) =>
    match readLeU16 l with
    | none => .error .ioError
    | some (commentLen, l) =>
    match readLeU16 l with
    | none => .error .ioError
    | some (disk, l) =>
    match readLeU16 l with
    | none => .error .ioError
    | some (intAttr, l) =>
    match readLeU32 l with
    | none => .error .ioError
    | some (extAttr, l) =>
    match readLeU32 l with
    | none => .error .ioError
    | some (relOff, l) =>
    match read_maybe_utf8 ((flags &&& 2048) != 0) nameLen l with
    | .error e => .error e
    | .ok (name, l) =>
    match readExact extraLen l with
    | none => .error .ioError
    | some (extra, l) =>
    match read_maybe_utf8 ((flags &&& 2048) != 0) commentLen l with
    | .error e => .error e
    | .ok (comment, l) =>
      .ok ({ version_made_by := vmb
             version_needed_to_extract := vne
             general_purpose_bit_flag := flags
             compression_method := method
             last_modified_datetime := dt
             crc32 := crc
             compressed_size := csize
             uncompressed_size := usize
             disk_number_start := disk
             internal_file_attributes := intAttr
             external_file_attributes := extAttr
             relative_offset_of_local_header := relOff
             file_name := name
             extra_field := extra
             file_comment := comment }, l)
  else .error (.invalidSignature magic)

/-- `CentralDirectoryHeader::write` from `format.rs`: fixed fields first, then
the three 16-bit length checks, then the disk/attribute/offset fields and the
variable-size fields. -/
def CentralDirectoryHeader.writeBytes (h : CentralDirectoryHeader) :
    List Nat × Option ZipError :=
  let pre :=
    writeLeU32 CDH_SIGNATURE ++
    writeLeU16 h.version_made_by ++
    writeLeU16 h.version_needed_to_extract ++
    writeLeU16 h.general_purpose_bit_flag ++
    writeLeU16 h.compression_method ++
    h.last_modified_datetime.writeBytes ++
    writeLeU32 h.crc32 ++
    writeLeU32 h.compressed_size ++
    writeLeU32 h.uncompressed_size
  match ensure_u16_field_length h.file_name.len with
  | none => (pre, some .tooLongField)
  | some nameLen =>
    match ensure_u16_field_length h.extra_field.length with
    | none => (pre ++ writeLeU16 nameLen, some .tooLongField)
    | some extraLen =>
      match ensure_u16_field_length h.file_comment.len with
      | none => (pre ++ writeLeU16 nameLen ++ writeLeU16 extraLen, some .tooLongField)
      | some commentLen =>
        let out := pre ++ writeLeU16 nameLen ++ writeLeU16 extraLen ++
          writeLeU16 commentLen ++ writeLeU16 h.disk_number_start ++
          writeLeU16 h.internal_file_attributes ++
          writeLeU32 h.external_file_attributes ++
          writeLeU32 h.relative_offset_of_local_header
        match write_maybe_utf8 h.has_utf8_name h.file_name with
        | none => (out, some .nonUtf8Field)
        | some nameBytes =>
          match write_maybe_utf8 h.has_utf8_name h.file_comment with
          | none => (out ++ nameBytes ++ h.extra_field, some .nonUtf8Field)
          | some commentBytes =>
            (out ++ nameBytes ++ h.extra_field ++ commentBytes, none)

/-- `format.rs` `EndOfCentralDirectoryRecord`. -/
structure EndOfCentralDirectoryRecord where
  disk_number : Nat
  disk_number_with_start_of_central_directory : Nat
  entry_count_this_disk : Nat
  total_entry_count : Nat
  central_directory_size : Nat
  central_directory_offset : Nat
  comment : List Nat
deriving DecidableEq, Repr

/-- `EndOfCentralDirectoryRecord::read` from `format.rs`. -/
def EndOfCentralDirectoryRecord.readBytes (l : List Nat) :
    Except ZipError (EndOfCentralDirectoryRecord × List Nat) :=
  match readLeU32 l with
  | none => .error .ioError
  | some (magic, l) =>
  if magic = EOCDR_SIGNATURE then
    match readLeU16 l with
    | none => .error .ioError
    | some (dn, l) =>
    match readLeU16 l with
    | none => .error .ioError
    | some (dnStart, l) =>
    match readLeU16 l with
    | none => .error .ioError
    | some (countThisDisk, l) =>
    match readLeU16 l with
    | none => .error .ioError
    | some (total, l) =>
    match readLeU32 l with
    | none => .error .ioError
    | some (cdSize, l) =>
    match readLeU32 l with
    | none => .error .ioError
    | some (cdOffset, l) =>
    match readLeU16 l with
    | none => .error .ioError
    | some (commentLen, l) =>
    match readExact commentLen l with
    | none => .error .ioError
    | some (comment, l) =>
      .ok ({ disk_number := dn
             disk_number_with_start_of_central_directory := dnStart
             entry_count_this_disk := countThisDisk
             total_entry_count := total
             central_directory_size := cdSize
             central_directory_offset := cdOffset
             comment := comment }, l)
  else .error (.invalidSignature magic)

/-- `EndOfCentralDirectoryRecord::write` from `format.rs`. -/
def EndOfCentralDirectoryRecord.writeBytes (h : EndOfCentralDirectoryRecord) :
    List Nat × Option ZipError :=
  let pre :=
    writeLeU32 EOCDR_SIGNATURE ++
    writeLeU16 h.disk_number ++
    writeLeU16 h.disk_number_with_start_of_central_directory ++
    writeLeU16 h.entry_count_this_disk ++
    writeLeU16 h.total_entry_count ++
    writeLeU32 h.central_directory_size ++
    writeLeU32 h.central_directory_offset
  match ensure_u16_field_length h.comment.length with
  | none => (pre, some .tooLongField)
  | some commentLen => (pre ++ writeLeU16 commentLen ++ h.comment, none)

/-- Modelled from the spec: one CRC-32 bit step (reflected polynomial
`0xEDB88320`), part of the `crc32` module referenced by `reader.rs` (`use
crc32`) but absent from the source tree. -/
def crc32BitStep (c : Nat) : Nat :=
  if c % 2 = 1 then (c / 2) ^^^ 0xEDB88320 else c / 2

/-- Modelled from the spec: folding one input byte into the CRC-32 state. -/
def crc32ByteStep (c b : Nat) : Nat := crc32BitStep^[8] (c ^^^ (b % 256))

/-- Modelled from the spec: the repository's `crc32` module is not under
`src/`; the spec specifies `crc32(bytes) -> u32 computing the standard ZIP
CRC-32 polynomial`, with `crc32([]) = 0` and `crc32("123456789") =
0xCBF43926`.  This is the standard reflected CRC-32 over those words. -/
def crc32 (bs : List Nat) : Nat :=
  (bs.foldl crc32ByteStep 0xFFFFFFFF) ^^^ 0xFFFFFFFF

/-- `fileinfo.rs` `CompressionMethod`. -/
inductive CompressionMethod where
  | Store
  | Deflate
  | Unknown
deriving DecidableEq, Repr

/-- `CompressionMethod::from_u16`: discriminants `Store = 0`, `Deflate = 8`,
anything else is `Unknown`. -/
def CompressionMethod.from_u16 (x : Nat) : CompressionMethod :=
  if x = 0 then .Store
  else if x = 8 then .Deflate
  else .Unknown

/-- `fileinfo.rs` `FileInfo`: the public per-entry descriptor. -/
structure FileInfo where
  name : MaybeUtf8
  compression_method : CompressionMethod
  last_modified_datetime : Nat × Nat × Nat × Nat × Nat × Nat
  crc32 : Nat
  compressed_size : Nat
  uncompressed_size : Nat
  is_encrypted : Bool
  local_file_header_offset : Nat
deriving DecidableEq, Repr

/-- `FileInfo::from_cdh` from `fileinfo.rs`: maps method code 0 to `Store` and
8 to `Deflate`; any other code hits `panic!()`, modelled as `none`. -/
def FileInfo.from_cdh (h : CentralDirectoryHeader) : Option FileInfo :=
  if h.compression_method = 0 then
    some { name := h.file_name
           compression_method := .Store
           last_modified_datetime := h.last_modified_datetime.to_tuple
           crc32 := h.crc32
           compressed_size := h.compressed_size
           uncompressed_size := h.uncompressed_size
           is_encrypted := h.is_encrypted
           local_file_header_offset := h.relative_offset_of_local_header }
  else if h.compression_method = 8 then
    some { name := h.file_name
           compression_method := .Deflate
           last_modified_datetime := h.last_modified_datetime.to_tuple
           crc32 := h.crc32
           compressed_size := h.compressed_size
           uncompressed_size := h.uncompressed_size
           is_encrypted := h.is_encrypted
           local_file_header_offset := h.relative_offset_of_local_header }
  else none

/-- The 4-byte little-endian value read at `off`, when at least 4 bytes are
available there (the signature probe of the EOCDR scan in `ZipReader::new`). -/
def sigAt (data : List Nat) (off : Nat) : Option Nat :=
  (readLeU32 (data.drop off)).map Prod.fst

/-- The backward scan of `ZipReader::new`: probe offsets `o, o-1, ..., 0` and
return the first offset whose 4-byte window equals the EOCDR signature. -/
def scanEocdr (data : List Nat) : Nat → Option Nat
  | 0 => if sigAt data 0 = some EOCDR_SIGNATURE then some 0 else none
  | o + 1 =>
    if sigAt data (o + 1) = some EOCDR_SIGNATURE then some (o + 1)
    else scanEocdr data o

/-- The EOCDR location loop of `ZipReader::new`: for `i in 4..=L` probe offset
`L - i`, i.e. scan `L-4, L-5, ..., 0`; empty when the stream is shorter than 4
bytes. -/
def findEocdr (data : List Nat) : Option Nat :=
  if 4 ≤ data.length then scanEocdr data (data.length - 4) else none

/-- `ZipReader::new` from `reader.rs`: locate the EOCDR by backward scan, then
parse it; `NotAZipFile` when no signature window matches.  The retained state
is the parsed end record (the reader also keeps the byte source). -/
def ZipReader.new (data : List Nat) : Except ZipError EndOfCentralDirectoryRecord :=
  match findEocdr data with
  | some off =>
    match EndOfCentralDirectoryRecord.readBytes (data.drop off) with
    | .ok (e, _) => .ok e
    | .error e => .error e
  | none => .error .notAZipFile

/-- Result of an extraction: the output bytes, a recoverable error, or a Rust
panic (`fatal`). -/
inductive XResult where
  | ok : List Nat → XResult
  | err : ZipError → XResult
  | fatal : XResult
deriving DecidableEq, Repr

/-- `ZipReader::decompress` from `reader.rs`: run the external inflate service;
on success, skip the CRC check when the declared CRC is 0, otherwise compare
`crc32` of the full inflated bytes against it (`CrcError` on mismatch); finally
return `ok[0..len]` — a panic (`fatal`) when the inflated output is shorter
than `len`. -/
def ZipReader.decompress (inflate : List Nat → Option (List Nat))
    (data : List Nat) (len : Nat) (crcDeclared : Nat) : XResult :=
  match inflate data with
  | some okBytes =>
    if crcDeclared = 0 ∨ crc32 okBytes = crcDeclared then
      if len ≤ okBytes.length then .ok (okBytes.take len) else .fatal
    else .err .crcError
  | none => .err .decompressionFailure

/-- `ZipReader::extract_block` from `reader.rs`: seek to `pos`, read exactly
`len` raw bytes, then dispatch on the compression method: `Store` returns the
raw bytes, `Deflate` inflates them, anything else panics. -/
def ZipReader.extract_block (inflate : List Nat → Option (List Nat))
    (data : List Nat) (pos len method crcDeclared : Nat) : XResult :=
  match readExact len (data.drop pos) with
  | none => .err .ioError
  | some (compressed, _) =>
    match CompressionMethod.from_u16 method with
    | .Store => .ok compressed
    | .Deflate => ZipReader.decompress inflate compressed len crcDeclared
    | .Unknown => .fatal

/-- `ZipReader::read` from `reader.rs`: parse the Local File Header at the
entry's stored offset, then extract `compressed_size` raw bytes from just past
the header, checking the header CRC. -/
def ZipReader.read (inflate : List Nat → Option (List Nat))
    (data : List Nat) (f : FileInfo) : XResult :=
  match LocalFileHeader.readBytes (data.drop f.local_file_header_offset) with
  | .ok header _ =>
    ZipReader.extract_block inflate data
      (f.local_file_header_offset + header.total_size)
      header.compressed_size header.compression_method header.crc32
  | .err e => .err e
  | .fatal => .fatal

/-- `ZipReader::extract_file` from `reader.rs`: `read`, then write the bytes to
the sink in one bulk write; the `ok` payload is exactly what the sink receives. -/
def ZipReader.extract_file (inflate : List Nat → Option (List Nat))
    (data : List Nat) (f : FileInfo) : XResult :=
  match ZipReader.read inflate data f with
  | .ok bytes => .ok bytes
  | .err e => .err e
  | .fatal => .fatal

/-- `ZipReader::read_first` from `reader.rs`: like `read`, but clamps the
requested `length` to the header's `compressed_size` and passes the clamped
value to `extract_block` as the raw byte count, with a declared CRC of 0. -/
def ZipReader.read_first (inflate : List Nat → Option (List Nat))
    (data : List Nat) (f : FileInfo) (length : Nat) : XResult :=
  match LocalFileHeader.readBytes (data.drop f.local_file_header_offset) with
  | .ok header _ =>
    let fileLen := header.compressed_size
    let len := if length > fileLen then fileLen else length
    ZipReader.extract_block inflate data
      (f.local_file_header_offset + header.total_size)
      len header.compression_method 0
  | .err e => .err e
  | .fatal => .fatal

/-- The cursor of `RawFiles` (`reader.rs`): entry counter and byte offset. -/
structure RawFilesState where
  current_entry : Nat
  current_offset : Nat
deriving DecidableEq, Repr

/-- Decidable equality for `Except` results. -/
instance {e a : Type} [DecidableEq e] [DecidableEq a] : DecidableEq (Except e a) := fun a b =>
  match a, b with
  | .ok x, .ok y =>
    if h : x = y then .isTrue (by rw [h]) else .isFalse (by simp [h])
  | .ok _, .error _ => .isFalse (by simp)
  | .error _, .ok _ => .isFalse (by simp)
  | .error x, .error y =>
    if h : x = y then .isTrue (by rw [h]) else .isFalse (by simp [h])

/-- One observation of the `RawFiles` iterator: an item together with the
iterator's state afterwards, end of iteration, or a panic. -/
inductive IterStep where
  | yield : Except ZipError FileInfo → RawFilesState → IterStep
  | done : IterStep
  | fatal : IterStep
deriving DecidableEq, Repr

/-- `RawFiles::next` from `reader.rs`: while fewer than `total_entry_count`
entries have been produced, seek to the current offset, parse one Central
Directory Header, convert it with `FileInfo::from_cdh` (which can panic), and
advance the counter and offset; a parse failure is returned as an error item
with the cursor unchanged. -/
def rawNext (data : List Nat) (er : EndOfCentralDirectoryRecord)
    (s : RawFilesState) : IterStep :=
  if s.current_entry < er.total_entry_count then
    match CentralDirectoryHeader.readBytes (data.drop s.current_offset) with
    | .ok (h, _) =>
      match FileInfo.from_cdh h with
      | some info =>
        .yield (.ok info)
          { current_entry := s.current_entry + 1
            current_offset := s.current_offset + h.total_size }
      | none => .fatal
    | .error e => .yield (.error e) s
  else .done

/-- The fresh cursor produced by `ZipReader::files_raw`: entry 0 at the central
directory offset recorded in the end record. -/
def filesRawInit (er : EndOfCentralDirectoryRecord) : RawFilesState :=
  { current_entry := 0, current_offset := er.central_directory_offset }

/-- Drive `RawFiles` for up to `fuel` polls, collecting the yielded items (a
panic or end-of-iteration stops the collection). -/
def runIter (data : List Nat) (er : EndOfCentralDirectoryRecord) :
    RawFilesState → Nat → List (Except ZipError FileInfo)
  | _, 0 => []
  | s, fuel + 1 =>
    match rawNext data er s with
    | .yield it s2 => it :: runIter data er s2 fuel
    | .done => []
    | .fatal => []

/-- Whether an iterator item is a successfully parsed entry. -/
def isOkItem : Except ZipError FileInfo → Bool
  | .ok _ => true
  | .error _ => false

/-- The number of successfully parsed entries among the yielded items. -/
def countOk (l : List (Except ZipError FileInfo)) : Nat :=
  (l.filter isOkItem).length

/-- A central directory is parseable for `n` entries from `off`: each
`CentralDirectoryHeader::read` at the iterator's computed offsets succeeds and
each header's method code is one `FileInfo::from_cdh` accepts (0 or 8). -/
def validFrom (data : List Nat) : Nat → Nat → Prop
  | _, 0 => True
  | off, n + 1 =>
    ∃ h rest, CentralDirectoryHeader.readBytes (data.drop off) = .ok (h, rest) ∧
      (h.compression_method = 0 ∨ h.compression_method = 8) ∧
      validFrom data (off + h.total_size) n

/-- A one-entry test archive: a Local File Header (method Deflate, declared
CRC32 `0x55BC801D` which is `crc32 [1,2,3]`, compressed size 2, uncompressed
size 3, empty name and extra field) followed by the 2 raw data bytes
`0xAA 0xBB`. -/
def cexData : List Nat :=
  [0x50, 0x4B, 0x03, 0x04] ++ [0, 0] ++ [0, 0] ++ [8, 0] ++ [0, 0] ++ [0, 0] ++
  [0x1D, 0x80, 0xBC, 0x55] ++ [2, 0, 0, 0] ++ [3, 0, 0, 0] ++ [0, 0] ++ [0, 0] ++
  [0xAA, 0xBB]

/-- A concrete inflate service for the test archive: the raw bytes `0xAA 0xBB`
inflate to the 3-byte payload `[1, 2, 3]`; every other input (in particular
every strict prefix of the raw data) is malformed. -/
def cexInflate (l : List Nat) : Option (List Nat) :=
  if l = [0xAA, 0xBB] then some [1, 2, 3] else none

/-- The `FileInfo` describing the single entry of `cexData` (extraction only
consults `local_file_header_offset`; the rest mirrors the header). -/
def cexInfo : FileInfo :=
  { name := .bytes []
    compression_method := .Deflate
    last_modified_datetime := (1980, 0, 0, 0, 0, 0)
    crc32 := 0x55BC801D
    compressed_size := 2
    uncompressed_size := 3
    is_encrypted := false
    local_file_header_offset := 0 }

/-- A one-entry Store archive whose declared CRC32 (`0xDEADBEEF`) does not
match the actual CRC-32 of its 3-byte payload `[1, 2, 3]`. -/
def storeData : List Nat :=
  [0x50, 0x4B, 0x03, 0x04] ++ [0, 0] ++ [0, 0] ++ [0, 0] ++ [0, 0] ++ [0, 0] ++
  [0xEF, 0xBE, 0xAD, 0xDE] ++ [3, 0, 0, 0] ++ [3, 0, 0, 0] ++ [0, 0] ++ [0, 0] ++
  [1, 2, 3]

/-- The `FileInfo` describing the single entry of `storeData`. -/
def storeInfo : FileInfo :=
  { name := .bytes []
    compression_method := .Store
    last_modified_datetime := (1980, 0, 0, 0, 0, 0)
    crc32 := 0xDEADBEEF
    compressed_size := 3
    uncompressed_size := 3
    is_encrypted := false
    local_file_header_offset := 0 }

/-- An end record declaring one entry with the central directory at offset 0. -/
def er0 : EndOfCentralDirectoryRecord :=
  { disk_number := 0
    disk_number_with_start_of_central_directory := 0
    entry_count_this_disk := 0
    total_entry_count := 1
    central_directory_size := 0
    central_directory_offset := 0
    comment := [] }

/-- A well-formed 46-byte Central Directory Header whose compression-method
code is 7 (every other field zero). -/
def cdh7Bytes : List Nat :=
  [0x50, 0x4B, 0x01, 0x02] ++ [0, 0] ++ [0, 0] ++ [0, 0] ++ [7, 0] ++ [0, 0] ++ [0, 0] ++
  [0, 0, 0, 0] ++ [0, 0, 0, 0] ++ [0, 0, 0, 0] ++ [0, 0] ++ [0, 0] ++ [0, 0] ++
  [0, 0] ++ [0, 0] ++ [0, 0, 0, 0] ++ [0, 0, 0, 0]

/-- The record parsed from `cdh7Bytes`. -/
def cdh7 : CentralDirectoryHeader :=
  { version_made_by := 0
    version_needed_to_extract := 0
    general_purpose_bit_flag := 0
    compression_method := 7
    last_modified_datetime := MsdosDateTime.zero
    crc32 := 0
    compressed_size := 0
    uncompressed_size := 0
    disk_number_start := 0
    internal_file_attributes := 0
    external_file_attributes := 0
    relative_offset_of_local_header := 0
    file_name := .bytes []
    extra_field := []
    file_comment := .bytes [] }

/-- `cdh7` with compression-method code 1: a header whose method is neither 0
nor 8, for exercising `FileInfo::from_cdh`. -/
def cdh1 : CentralDirectoryHeader :=
  { cdh7 with compression_method := 1 }

/-- `cdh7` with compression-method code 0 (method Store). -/
def cdh0 : CentralDirectoryHeader :=
  { cdh7 with compression_method := 0 }

/-- A well-formed 46-byte all-zero Central Directory Header (method Store). -/
def cdh0Bytes : List Nat :=
  [0x50, 0x4B, 0x01, 0x02] ++ [0, 0] ++ [0, 0] ++ [0, 0] ++ [0, 0] ++ [0, 0] ++ [0, 0] ++
  [0, 0, 0, 0] ++ [0, 0, 0, 0] ++ [0, 0, 0, 0] ++ [0, 0] ++ [0, 0] ++ [0, 0] ++
  [0, 0] ++ [0, 0] ++ [0, 0, 0, 0] ++ [0, 0, 0, 0]

/-- A minimal 30-byte Local File Header byte sequence (all fields zero). -/
def lfhOkBytes : List Nat := [0x50, 0x4B, 0x03, 0x04] ++ List.replicate 26 0

/-- The record parsed from `lfhOkBytes`. -/
def lfhZero : LocalFileHeader :=
  { version_needed_to_extract := 0
    general_purpose_bit_flag := 0
    compression_method := 0
    last_modified_datetime := MsdosDateTime.zero
    crc32 := 0
    compressed_size := 0
    uncompressed_size := 0
    file_name := .bytes []
    extra_field := [] }

/-- `lfhZero` with the encryption flag bit (`0x1`) set: a format-representable
in-memory record that `LocalFileHeader::read` refuses to parse back. -/
def lfhEnc : LocalFileHeader :=
  { lfhZero with general_purpose_bit_flag := 1 }

/-- `lfhZero` with a 65536-byte file name: one byte too long for the 16-bit
length prefix. -/
def bigLfh : LocalFileHeader :=
  { lfhZero with file_name := .bytes (List.replicate 65536 0) }

/-- `cdh7` (with method 0) carrying a 65536-byte file comment. -/
def bigCdh : CentralDirectoryHeader :=
  { cdh7 with compression_method := 0, file_comment := .bytes (List.replicate 65536 0) }

/-- An end record with a 65536-byte archive comment. -/
def bigEocdr : EndOfCentralDirectoryRecord :=
  { er0 with comment := List.replicate 65536 0 }

/-- Format-representability of a `LocalFileHeader`: every numeric field fits
its fixed width, the variable fields fit the 16-bit length prefixes, and a
UTF-8-flagged name really is valid UTF-8. -/
def lfhRepr (h : LocalFileHeader) : Prop :=
  h.version_needed_to_extract < 65536 ∧ h.general_purpose_bit_flag < 65536 ∧
  h.compression_method < 65536 ∧ h.last_modified_datetime.time < 65536 ∧
  h.last_modified_datetime.date < 65536 ∧ h.crc32 < 4294967296 ∧
  h.compressed_size < 4294967296 ∧ h.uncompressed_size < 4294967296 ∧
  h.file_name.len ≤ 65535 ∧ h.extra_field.length ≤ 65535 ∧
  (h.has_utf8_name = true → validUtf8 h.file_name.asBytes = true)

/-- None of the five parse-time-rejected flag bits is set. -/
def lfhFlagsOk (h : LocalFileHeader) : Prop :=
  h.is_encrypted = false ∧ h.is_compressed_patched_data = false ∧
  h.has_data_descriptor = false ∧ h.uses_strong_encryption = false ∧
  h.uses_masking = false

/-- Record equality for Local File Headers, with the name compared by
underlying byte content (the `MaybeUTF8` `PartialEq`). -/
def LocalFileHeader.eqv (a b : LocalFileHeader) : Prop :=
  a.version_needed_to_extract = b.version_needed_to_extract ∧
  a.general_purpose_bit_flag = b.general_purpose_bit_flag ∧
  a.compression_method = b.compression_method ∧
  a.last_modified_datetime = b.last_modified_datetime ∧
  a.crc32 = b.crc32 ∧ a.compressed_size = b.compressed_size ∧
  a.uncompressed_size = b.uncompressed_size ∧
  a.file_name.byteEq b.file_name ∧ a.extra_field = b.extra_field

/-- The record `LocalFileHeader::read` reconstructs from `write`'s output: the
same fields, with the name re-tagged according to the UTF-8 flag. -/
def lfhNormalize (h : LocalFileHeader) : LocalFileHeader :=
  { h with file_name :=
      if h.has_utf8_name then .text h.file_name.asBytes else .bytes h.file_name.asBytes }

/-- Format-representability of a `CentralDirectoryHeader` (as `lfhRepr`, plus
the comment). -/
def cdhRepr (h : CentralDirectoryHeader) : Prop :=
  h.version_made_by < 65536 ∧ h.version_needed_to_extract < 65536 ∧
  h.general_purpose_bit_flag < 65536 ∧ h.compression_method < 65536 ∧
  h.last_modified_datetime.time < 65536 ∧ h.last_modified_datetime.date < 65536 ∧
  h.crc32 < 4294967296 ∧ h.compressed_size < 4294967296 ∧
  h.uncompressed_size < 4294967296 ∧ h.disk_number_start < 65536 ∧
  h.internal_file_attributes < 65536 ∧ h.external_file_attributes < 4294967296 ∧
  h.relative_offset_of_local_header < 4294967296 ∧
  h.file_name.len ≤ 65535 ∧ h.extra_field.length ≤ 65535 ∧ h.file_comment.len ≤ 65535 ∧
  (h.has_utf8_name = true → validUtf8 h.file_name.asBytes = true) ∧
  (h.has_utf8_name = true → validUtf8 h.file_comment.asBytes = true)

/-- Record equality for Central Directory Headers, name and comment compared by
byte content. -/
def CentralDirectoryHeader.eqv (a b : CentralDirectoryHeader) : Prop :=
  a.version_made_by = b.version_made_by ∧
  a.version_needed_to_extract = b.version_needed_to_extract ∧
  a.general_purpose_bit_flag = b.general_purpose_bit_flag ∧
  a.compression_method = b.compression_method ∧
  a.last_modified_datetime = b.last_modified_datetime ∧
  a.crc32 = b.crc32 ∧ a.compressed_size = b.compressed_size ∧
  a.uncompressed_size = b.uncompressed_size ∧
  a.disk_number_start = b.disk_number_start ∧
  a.internal_file_attributes = b.internal_file_attributes ∧
  a.external_file_attributes = b.external_file_attributes ∧
  a.relative_offset_of_local_header = b.relative_offset_of_local_header ∧
  a.file_name.byteEq b.file_name ∧ a.extra_field = b.extra_field ∧
  a.file_comment.byteEq b.file_comment

/-- The record `CentralDirectoryHeader::read` reconstructs from `write`'s
output. -/
def cdhNormalize (h : CentralDirectoryHeader) : CentralDirectoryHeader :=
  { h with
      file_name :=
        if h.has_utf8_name then .text h.file_name.asBytes else .bytes h.file_name.asBytes
      file_comment :=
        if h.has_utf8_name then .text h.file_comment.asBytes else .bytes h.file_comment.asBytes }

/-- Format-representability of an `EndOfCentralDirectoryRecord`. -/
def eocdrRepr (h : EndOfCentralDirectoryRecord) : Prop :=
  h.disk_number < 65536 ∧ h.disk_number_with_start_of_central_directory < 65536 ∧
  h.entry_count_this_disk < 65536 ∧ h.total_entry_count < 65536 ∧
  h.central_directory_size < 4294967296 ∧ h.central_directory_offset < 4294967296 ∧
  h.comment.length ≤ 65535

theorem readLeU16_write (n : Nat) (rest : List Nat) (h : n < 65536) :
    readLeU16 (writeLeU16 n ++ rest) = some (n, rest) := by
  simp only [writeLeU16, List.cons_append, List.nil_append, readLeU16,
    Option.some.injEq, Prod.mk.injEq]
  exact ⟨by omega, trivial⟩

theorem readLeU32_write (n : Nat) (rest : List Nat) (h : n < 4294967296) :
    readLeU32 (writeLeU32 n ++ rest) = some (n, rest) := by
  simp only [writeLeU32, List.cons_append, List.nil_append, readLeU32,
    Option.some.injEq, Prod.mk.injEq]
  exact ⟨by omega, trivial⟩

theorem readExact_append (l rest : List Nat) :
    readExact l.length (l ++ rest) = some (l, rest) := by
  simp [readExact, List.take_left, List.drop_left]

theorem readExact_self (l : List Nat) : readExact l.length l = some (l, []) := by
  simpa using readExact_append l []

theorem msdos_roundtrip (m : MsdosDateTime) (rest : List Nat)
    (ht : m.time < 65536) (hd : m.date < 65536) :
    MsdosDateTime.readBytes (m.writeBytes ++ rest) = some (m, rest) := by
  simp [MsdosDateTime.readBytes, MsdosDateTime.writeBytes, List.append_assoc,
    readLeU16_write _ _ ht, readLeU16_write _ _ hd]

theorem ensure_u16_of_le {len : Nat} (h : len ≤ 65535) :
    ensure_u16_field_length len = some len := by
  simp [ensure_u16_field_length, h]

theorem ensure_u16_of_gt {len : Nat} (h : 65535 < len) :
    ensure_u16_field_length len = none := by
  simp only [ensure_u16_field_length, ite_eq_right_iff]
  omega

theorem write_maybe_utf8_eq (b : Bool) (m : MaybeUtf8)
    (hv : b = true → validUtf8 m.asBytes = true) :
    write_maybe_utf8 b m = some m.asBytes := by
  cases b with
  | false => simp [write_maybe_utf8]
  | true =>
    cases m with
    | text v => simp [write_maybe_utf8, MaybeUtf8.asStr, MaybeUtf8.asBytes]
    | bytes v =>
      simp only [MaybeUtf8.asBytes] at hv
      simp [write_maybe_utf8, MaybeUtf8.asStr, MaybeUtf8.asBytes, hv trivial]

theorem read_maybe_utf8_append (b : Bool) (m : MaybeUtf8) (rest : List Nat)
    (hv : b = true → validUtf8 m.asBytes = true) :
    read_maybe_utf8 b m.len (m.asBytes ++ rest) =
      .ok (if b then .text m.asBytes else .bytes m.asBytes, rest) := by
  cases b with
  | false => simp [read_maybe_utf8, MaybeUtf8.len, readExact_append]
  | true => simp [read_maybe_utf8, MaybeUtf8.len, readExact_append, hv rfl]

theorem asBytes_retag (b : Bool) (x : List Nat) :
    (if b then MaybeUtf8.text x else MaybeUtf8.bytes x).asBytes = x := by
  cases b <;> simp [MaybeUtf8.asBytes]

theorem lfh_roundtrip (h : LocalFileHeader) (hr : lfhRepr h) (hf : lfhFlagsOk h) :
    (LocalFileHeader.writeBytes h).2 = none ∧
    LocalFileHeader.readBytes (LocalFileHeader.writeBytes h).1 =
      .ok (lfhNormalize h) [] ∧
    LocalFileHeader.eqv h (lfhNormalize h) := by
  obtain ⟨r1, r2, r3, r4, r5, r6, r7, r8, r9, r10, r11⟩ := hr
  obtain ⟨f1, f2, f3, f4, f5⟩ := hf
  have hw8 : write_maybe_utf8 h.has_utf8_name h.file_name = some h.file_name.asBytes :=
    write_maybe_utf8_eq _ _ r11
  have hwrite : LocalFileHeader.writeBytes h =
      (writeLeU32 LFH_SIGNATURE ++
       (writeLeU16 h.version_needed_to_extract ++
       (writeLeU16 h.general_purpose_bit_flag ++
       (writeLeU16 h.compression_method ++
       (h.last_modified_datetime.writeBytes ++
       (writeLeU32 h.crc32 ++
       (writeLeU32 h.compressed_size ++
       (writeLeU32 h.uncompressed_size ++
       (writeLeU16 h.file_name.len ++
       (writeLeU16 h.extra_field.length ++
       (h.file_name.asBytes ++ h.extra_field)))))))))), none) := by
    simp [LocalFileHeader.writeBytes, ensure_u16_of_le r9, ensure_u16_of_le r10, hw8]
  have hrm := read_maybe_utf8_append h.has_utf8_name h.file_name h.extra_field r11
  simp only [LocalFileHeader.has_utf8_name] at hrm
  simp only [LocalFileHeader.is_encrypted] at f1
  simp only [LocalFileHeader.is_compressed_patched_data] at f2
  simp only [LocalFileHeader.has_data_descriptor] at f3
  simp only [LocalFileHeader.uses_strong_encryption] at f4
  simp only [LocalFileHeader.uses_masking] at f5
  refine ⟨by rw [hwrite], ?_, ?_⟩
  · rw [hwrite]
    simp only [LocalFileHeader.readBytes, ioStep, List.append_assoc,
      readLeU32_write _ _ (show LFH_SIGNATURE < 4294967296 by norm_num [LFH_SIGNATURE]),
      readLeU16_write _ _ r1, readLeU16_write _ _ r2, readLeU16_write _ _ r3,
      msdos_roundtrip _ _ r4 r5,
      readLeU32_write _ _ r6, readLeU32_write _ _ r7, readLeU32_write _ _ r8,
      readLeU16_write _ _ (show h.file_name.len < 65536 by omega),
      readLeU16_write _ _ (show h.extra_field.length < 65536 by omega),
      hrm, readExact_self, if_pos rfl]
    simp only [LocalFileHeader.is_encrypted, LocalFileHeader.is_compressed_patched_data,
      LocalFileHeader.has_data_descriptor, LocalFileHeader.uses_strong_encryption,
      LocalFileHeader.uses_masking, f1, f2, f3, f4, f5, if_false, Bool.false_eq_true]
    simp [lfhNormalize, LocalFileHeader.has_utf8_name]
  · simp [LocalFileHeader.eqv, lfhNormalize, MaybeUtf8.byteEq, asBytes_retag]

theorem cdh_roundtrip (h : CentralDirectoryHeader) (hr : cdhRepr h) :
    (CentralDirectoryHeader.writeBytes h).2 = none ∧
    CentralDirectoryHeader.readBytes (CentralDirectoryHeader.writeBytes h).1 =
      .ok (cdhNormalize h, []) ∧
    CentralDirectoryHeader.eqv h (cdhNormalize h) := by
  obtain ⟨r1, r2, r3, r4, r5, r6, r7, r8, r9, r10, r11, r12, r13, r14, r15, r16, r17, r18⟩ := hr
  have hw8 : write_maybe_utf8 h.has_utf8_name h.file_name = some h.file_name.asBytes :=
    write_maybe_utf8_eq _ _ r17
  have hw9 : write_maybe_utf8 h.has_utf8_name h.file_comment = some h.file_comment.asBytes :=
    write_maybe_utf8_eq _ _ r18
  have hwrite : CentralDirectoryHeader.writeBytes h =
      (writeLeU32 CDH_SIGNATURE ++
       (writeLeU16 h.version_made_by ++
       (writeLeU16 h.version_needed_to_extract ++
       (writeLeU16 h.general_purpose_bit_flag ++
       (writeLeU16 h.compression_method ++
       (h.last_modified_datetime.writeBytes ++
       (writeLeU32 h.crc32 ++
       (writeLeU32 h.compressed_size ++
       (writeLeU32 h.uncompressed_size ++
       (writeLeU16 h.file_name.len ++
       (writeLeU16 h.extra_field.length ++
       (writeLeU16 h.file_comment.len ++
       (writeLeU16 h.disk_number_start ++
       (writeLeU16 h.internal_file_attributes ++
       (writeLeU32 h.external_file_attributes ++
       (writeLeU32 h.relative_offset_of_local_header ++
       (h.file_name.asBytes ++
       (h.extra_field ++ h.file_comment.asBytes))))))))))))))))), none) := by
    simp [CentralDirectoryHeader.writeBytes, ensure_u16_of_le r14, ensure_u16_of_le r15,
      ensure_u16_of_le r16, hw8, hw9]
  have hrm := read_maybe_utf8_append h.has_utf8_name h.file_name
    (h.extra_field ++ h.file_comment.asBytes) r17
  have hrc := read_maybe_utf8_append h.has_utf8_name h.file_comment [] r18
  simp only [CentralDirectoryHeader.has_utf8_name] at hrm hrc
  simp only [List.append_nil] at hrc
  refine ⟨by rw [hwrite], ?_, ?_⟩
  · rw [hwrite]
    simp only [CentralDirectoryHeader.readBytes, List.append_assoc,
      readLeU32_write _ _ (show CDH_SIGNATURE < 4294967296 by norm_num [CDH_SIGNATURE]),
      readLeU16_write _ _ r1, readLeU16_write _ _ r2, readLeU16_write _ _ r3,
      readLeU16_write _ _ r4, msdos_roundtrip _ _ r5 r6,
      readLeU32_write _ _ r7, readLeU32_write _ _ r8, readLeU32_write _ _ r9,
      readLeU16_write _ _ (show h.file_name.len < 65536 by omega),
      readLeU16_write _ _ (show h.extra_field.length < 65536 by omega),
      readLeU16_write _ _ (show h.file_comment.len < 65536 by omega),
      readLeU16_write _ _ r10, readLeU16_write _ _ r11,
      readLeU32_write _ _ r12, readLeU32_write _ _ r13,
      hrm, readExact_append, hrc, if_pos rfl]
    simp [cdhNormalize, CentralDirectoryHeader.has_utf8_name]
  · simp [CentralDirectoryHeader.eqv, cdhNormalize, MaybeUtf8.byteEq, asBytes_retag]

theorem eocdr_roundtrip (h : EndOfCentralDirectoryRecord) (hr : eocdrRepr h) :
    (EndOfCentralDirectoryRecord.writeBytes h).2 = none ∧
    EndOfCentralDirectoryRecord.readBytes (EndOfCentralDirectoryRecord.writeBytes h).1 =
      .ok (h, []) := by
  obtain ⟨r1, r2, r3, r4, r5, r6, r7⟩ := hr
  have hwrite : EndOfCentralDirectoryRecord.writeBytes h =
      (writeLeU32 EOCDR_SIGNATURE ++
       (writeLeU16 h.disk_number ++
       (writeLeU16 h.disk_number_with_start_of_central_directory ++
       (writeLeU16 h.entry_count_this_disk ++
       (writeLeU16 h.total_entry_count ++
       (writeLeU32 h.central_directory_size ++
       (writeLeU32 h.central_directory_offset ++
       (writeLeU16 h.comment.length ++ h.comment))))))), none) := by
    simp [EndOfCentralDirectoryRecord.writeBytes, ensure_u16_of_le r7]
  refine ⟨by rw [hwrite], ?_⟩
  rw [hwrite]
  simp only [EndOfCentralDirectoryRecord.readBytes, List.append_assoc,
    readLeU32_write _ _ (show EOCDR_SIGNATURE < 4294967296 by norm_num [EOCDR_SIGNATURE]),
    readLeU16_write _ _ r1, readLeU16_write _ _ r2, readLeU16_write _ _ r3,
    readLeU16_write _ _ r4, readLeU32_write _ _ r5, readLeU32_write _ _ r6,
    readLeU16_write _ _ (show h.comment.length < 65536 by omega),
    readExact_self, if_pos rfl]
  simp

theorem readLeU32_short (l : List Nat) (h : l.length < 4) : readLeU32 l = none := by
  match l with
  | [] => rfl
  | [_] => rfl
  | [_, _] => rfl
  | [_, _, _] => rfl
  | _ :: _ :: _ :: _ :: _ => simp at h; omega

theorem sigAt_none (data : List Nat) (o : Nat) (h : data.length < o + 4) :
    sigAt data o = none := by
  have : (data.drop o).length < 4 := by simp; omega
  simp [sigAt, readLeU32_short _ this]

theorem scanEocdr_some (data : List Nat) (start : Nat) :
    ∀ o, scanEocdr data start = some o →
      sigAt data o = some EOCDR_SIGNATURE ∧ o ≤ start ∧
      ∀ o2, o < o2 → o2 ≤ start → sigAt data o2 ≠ some EOCDR_SIGNATURE := by
  induction start with
  | zero =>
    intro o hscan
    simp only [scanEocdr] at hscan
    split at hscan
    · cases hscan
      refine ⟨by assumption, le_refl 0, ?_⟩
      intro o2 h1 h2
      omega
    · cases hscan
  | succ n ih =>
    intro o hscan
    simp only [scanEocdr] at hscan
    split at hscan
    · cases hscan
      refine ⟨by assumption, le_refl _, ?_⟩
      intro o2 h1 h2
      omega
    · obtain ⟨hs, hle, hmax⟩ := ih o hscan
      refine ⟨hs, Nat.le_succ_of_le hle, ?_⟩
      intro o2 h1 h2
      rcases Nat.lt_or_ge o2 (n + 1) with hlt | hge
      · exact hmax o2 h1 (by omega)
      · have : o2 = n + 1 := by omega
        subst this
        assumption

theorem scanEocdr_none (data : List Nat) (start : Nat) :
    scanEocdr data start = none →
      ∀ o ≤ start, sigAt data o ≠ some EOCDR_SIGNATURE := by
  induction start with
  | zero =>
    intro hscan o hle
    simp only [scanEocdr] at hscan
    split at hscan
    · cases hscan
    · have : o = 0 := by omega
      subst this
      assumption
  | succ n ih =>
    intro hscan o hle
    simp only [scanEocdr] at hscan
    split at hscan
    · cases hscan
    · rcases Nat.lt_or_ge o (n + 1) with hlt | hge
      · exact ih hscan o (by omega)
      · have : o = n + 1 := by omega
        subst this
        assumption

theorem findEocdr_some (data : List Nat) (o : Nat) (h : findEocdr data = some o) :
    sigAt data o = some EOCDR_SIGNATURE ∧
    ∀ o2, o < o2 → sigAt data o2 ≠ some EOCDR_SIGNATURE := by
  unfold findEocdr at h
  split at h
  · obtain ⟨hs, hle, hmax⟩ := scanEocdr_some data (data.length - 4) o h
    refine ⟨hs, ?_⟩
    intro o2 hgt
    rcases Nat.lt_or_ge (data.length - 4) o2 with hbig | hsmall
    · rw [sigAt_none data o2 (by omega)]
      simp
    · exact hmax o2 hgt hsmall
  · cases h

theorem findEocdr_none (data : List Nat)
    (h : ∀ o, sigAt data o ≠ some EOCDR_SIGNATURE) : findEocdr data = none := by
  unfold findEocdr
  split
  · cases hscan : scanEocdr data (data.length - 4) with
    | none => rfl
    | some o =>
      obtain ⟨hs, _, _⟩ := scanEocdr_some data (data.length - 4) o hscan
      exact absurd hs (h o)
  · rfl

/-- Claim C1: the spec states that for a Deflate entry, full extraction
(`ZipReader::read` / `extract_file`) outputs the complete inflated byte
sequence.  The code instead returns `ok[0..len]` with `len` equal to the
entry's `compressed_size`: on this archive the raw bytes `0xAA 0xBB`
(compressed size 2) inflate to the 3-byte payload `[1, 2, 3]` whose CRC-32
matches the header, yet `read` and `extract_file` return only the 2-byte
prefix `[1, 2]`. -/
theorem claim1_deflate_full_extraction_truncated :
    cexInflate [0xAA, 0xBB] = some [1, 2, 3] ∧
    crc32 [1, 2, 3] = 0x55BC801D ∧
    ZipReader.read cexInflate cexData cexInfo = .ok [1, 2] ∧
    ZipReader.extract_file cexInflate cexData cexInfo = .ok [1, 2] := by
  decide

/-- Claim C3: the spec states that first-N-bytes extraction obtains the full
decompressed payload and truncates it to `N` after decompression.  The code
instead truncates the compressed byte count before inflating: requesting the
first byte of the Deflate entry feeds a 1-byte prefix of the raw data to the
inflate service and fails with `DecompressionFailure`; and requesting 5 bytes
returns `[1, 2]` (the inflated payload truncated to `compressed_size`), not
the full 3-byte payload. -/
theorem claim3_read_first_truncates_compressed_input :
    cexInflate [0xAA, 0xBB] = some [1, 2, 3] ∧
    ZipReader.read_first cexInflate cexData cexInfo 1 = .err .decompressionFailure ∧
    ZipReader.read_first cexInflate cexData cexInfo 5 = .ok [1, 2] := by
  decide

/-- Claim C2 counterexample: a Store entry whose declared CRC32 (`0xDEADBEEF`)
differs from the actual CRC-32 of its payload `[1, 2, 3]` is nonetheless
extracted successfully — full extraction performs no CRC check at all on the
Store path, contradicting the claim that every entry fails with `CrcError` on
mismatch. -/
theorem claim2_counterexample_store_crc_unchecked :
    ZipReader.read cexInflate storeData storeInfo = .ok [1, 2, 3] ∧
    crc32 [1, 2, 3] ≠ 0xDEADBEEF := by
  decide

/-- Claim C6 counterexample: `FileInfo::from_cdh` applied to a header with
compression-method code 1 panics (`panic!()`, modelled as `none`) instead of
producing a `FileInfo` with the `Unknown` sentinel. -/
theorem claim6_counterexample_from_cdh_panics :
    FileInfo.from_cdh cdh1 = none := by
  decide

/-- Claim C7 counterexample: with one declared entry and an empty byte source,
the first poll surfaces a parse failure as an error item but leaves the cursor
unchanged, so iteration does not stop: two polls yield two items even though
`total_entry_count` is 1. -/
theorem claim7_counterexample_error_not_fused :
    rawNext [] er0 { current_entry := 0, current_offset := 0 } =
      .yield (.error .ioError) { current_entry := 0, current_offset := 0 } ∧
    (runIter [] er0 { current_entry := 0, current_offset := 0 } 2).length = 2 ∧
    er0.total_entry_count = 1 := by
  decide

/-- Claim C8 counterexample: an archive whose single central-directory-header
parse succeeds (method code 7) is valid in the claim's sense, yet iteration
panics in `FileInfo::from_cdh` and produces 0 `FileInfo` values instead of
`total_entry_count = 1`. -/
theorem claim8_counterexample_unknown_method_panics :
    CentralDirectoryHeader.readBytes cdh7Bytes = .ok (cdh7, []) ∧
    rawNext cdh7Bytes er0 { current_entry := 0, current_offset := 0 } = .fatal ∧
    countOk (runIter cdh7Bytes er0 { current_entry := 0, current_offset := 0 } 5) = 0 ∧
    er0.total_entry_count = 1 := by
  decide

/-- Claim C10 counterexample: an in-memory Local File Header with the
(format-representable) encryption flag bit set writes successfully, but
reading the written bytes back panics on the `assert!`, so `write` followed by
`read` does not reproduce the record. -/
theorem claim10_counterexample_encrypted_flag_roundtrip :
    (LocalFileHeader.writeBytes lfhEnc).2 = none ∧
    LocalFileHeader.readBytes (LocalFileHeader.writeBytes lfhEnc).1 = PResult.fatal := by
  decide

/-- Claim C4: `ZipReader::new` scans 4-byte windows backward from offset
`L - 4` down to 0: when it returns an offset, that offset holds the EOCDR
signature and is the rightmost offset that does (a comment after a valid EOCDR
cannot defeat location); when no window holds the signature, construction
fails with `NotAZipFile`. -/
theorem claim4_eocdr_backward_scan (data : List Nat) :
    (∀ o, findEocdr data = some o →
      sigAt data o = some EOCDR_SIGNATURE ∧
      ∀ o2, o < o2 → sigAt data o2 ≠ some EOCDR_SIGNATURE) ∧
    ((∀ o, sigAt data o ≠ some EOCDR_SIGNATURE) →
      ZipReader.new data = .error .notAZipFile) := by
  constructor
  · intro o h
    exact findEocdr_some data o h
  · intro h
    simp [ZipReader.new, findEocdr_none data h]

/-- Witness for C4: a 4-byte buffer that is exactly the EOCDR signature is
located at offset 0, and a 4-byte buffer with no signature fails construction
with `NotAZipFile`. -/
theorem claim4_witness :
    ZipReader.new [0, 0, 0, 0] = .error .notAZipFile ∧
    sigAt [0x50, 0x4B, 0x05, 0x06] 0 = some EOCDR_SIGNATURE := by
  constructor
  · apply (claim4_eocdr_backward_scan [0, 0, 0, 0]).2
    intro o
    match o with
    | 0 => decide
    | n + 1 =>
      rw [sigAt_none [0, 0, 0, 0] (n + 1) (by simp)]
      simp
  · exact ((claim4_eocdr_backward_scan [0x50, 0x4B, 0x05, 0x06]).1 0 (by decide)).1

/-- Claim C9: `LocalFileHeader::read` never returns `Ok` for a header whose
general-purpose flag has any of the bits encryption (0x1), trailing data
descriptor (0x8), compressed-patched-data (0x20), strong encryption (0x40) or
masking (0x2000) set: whenever it returns `Ok`, all five predicates are false
(such headers hit the `assert!`s, modelled as `fatal`). -/
theorem claim9_unsupported_flags_rejected (l : List Nat) (h : LocalFileHeader)
    (rest : List Nat) (hok : LocalFileHeader.readBytes l = PResult.ok h rest) :
    h.is_encrypted = false ∧ h.has_data_descriptor = false ∧
    h.is_compressed_patched_data = false ∧ h.uses_strong_encryption = false ∧
    h.uses_masking = false := by
  simp only [LocalFileHeader.readBytes, ioStep] at hok
  repeat' split at hok
  all_goals first
    | (cases hok
       simp_all only [Bool.not_eq_true]
       try exact ⟨trivial, trivial, trivial, trivial, trivial⟩)
    | (cases hok)

/-- Witness for C9: the minimal all-zero Local File Header parses to `Ok` and
indeed has none of the five rejected flag bits set. -/
theorem claim9_witness :
    LocalFileHeader.readBytes lfhOkBytes = PResult.ok lfhZero [] ∧
    lfhZero.is_encrypted = false ∧ lfhZero.has_data_descriptor = false ∧
    lfhZero.is_compressed_patched_data = false ∧
    lfhZero.uses_strong_encryption = false ∧ lfhZero.uses_masking = false := by
  have hok : LocalFileHeader.readBytes lfhOkBytes = PResult.ok lfhZero [] := by decide
  exact ⟨hok, claim9_unsupported_flags_rejected lfhOkBytes lfhZero [] hok⟩

/-- Claim C6 (amended): `CompressionMethod::from_u16` maps 0 to `Store`, 8 to
`Deflate` and every other code to the `Unknown` sentinel, and extraction of an
`Unknown` method is fatal; but the header-to-descriptor conversion
`FileInfo::from_cdh` panics (`none`) on codes other than 0 and 8 instead of
producing a `FileInfo` carrying `Unknown`. -/
theorem claim6_method_mapping (m : Nat) (h : CentralDirectoryHeader)
    (inflate : List Nat → Option (List Nat)) (data : List Nat) (pos len crc : Nat) :
    (m ≠ 0 → m ≠ 8 → CompressionMethod.from_u16 m = .Unknown) ∧
    (CompressionMethod.from_u16 0 = .Store ∧ CompressionMethod.from_u16 8 = .Deflate) ∧
    (h.compression_method ≠ 0 → h.compression_method ≠ 8 →
      FileInfo.from_cdh h = none) ∧
    (h.compression_method = 0 →
      (FileInfo.from_cdh h).map (fun fi => fi.compression_method) = some .Store) ∧
    (h.compression_method = 8 →
      (FileInfo.from_cdh h).map (fun fi => fi.compression_method) = some .Deflate) ∧
    (pos + len ≤ data.length → CompressionMethod.from_u16 m = .Unknown →
      ZipReader.extract_block inflate data pos len m crc = .fatal) := by
  refine ⟨?_, ⟨by simp [CompressionMethod.from_u16], by simp [CompressionMethod.from_u16]⟩,
    ?_, ?_, ?_, ?_⟩
  · intro h0 h8
    simp [CompressionMethod.from_u16, h0, h8]
  · intro h0 h8
    simp [FileInfo.from_cdh, h0, h8]
  · intro h0
    simp [FileInfo.from_cdh, h0]
  · intro h8
    simp [FileInfo.from_cdh, h8]
  · intro hlen hm
    have hx : readExact len (data.drop pos) = some ((data.drop pos).take len, (data.drop pos).drop len) := by
      simp only [readExact, List.length_drop, if_pos (by omega : len ≤ data.length - pos)]
    simp [ZipReader.extract_block, hx, hm]

/-- Witness for C6: method code 7 maps to `Unknown`, codes 0 and 8 map to
`Store`/`Deflate` in `from_cdh`, and extracting with method 7 from a concrete
one-byte archive panics. -/
theorem claim6_witness :
    CompressionMethod.from_u16 7 = .Unknown ∧
    FileInfo.from_cdh cdh1 = none ∧
    (FileInfo.from_cdh cdh0).map (fun fi => fi.compression_method) = some .Store ∧
    ZipReader.extract_block cexInflate [0] 0 1 7 0 = .fatal := by
  refine ⟨(claim6_method_mapping 7 cdh1 cexInflate [0] 0 1 0).1 (by decide) (by decide),
    (claim6_method_mapping 7 cdh1 cexInflate [0] 0 1 0).2.2.1 (by decide) (by decide),
    (claim6_method_mapping 7 cdh0 cexInflate [0] 0 1 0).2.2.2.1 (by decide),
    (claim6_method_mapping 7 cdh1 cexInflate [0] 0 1 0).2.2.2.2.2 (by decide) (by decide)⟩

/-- Claim C2 (amended): full extraction verifies the CRC only on the Deflate
path and only when the header-declared CRC32 is nonzero: there it computes
CRC-32 over the complete inflated bytes and fails with `CrcError` on mismatch
(succeeding, with the truncated output of C1, on agreement); Store entries are
returned with no CRC check at all, and a declared CRC32 of 0 disables the
check on the Deflate path. -/
theorem claim2_crc_checked_only_for_nonzero_deflate
    (inflate : List Nat → Option (List Nat)) (data : List Nat) (f : FileInfo)
    (h : LocalFileHeader) (rest rest2 raw out : List Nat)
    (hlfh : LocalFileHeader.readBytes (data.drop f.local_file_header_offset) =
      PResult.ok h rest)
    (hraw : readExact h.compressed_size
      (data.drop (f.local_file_header_offset + h.total_size)) = some (raw, rest2)) :
    (h.compression_method = 8 → h.crc32 ≠ 0 → inflate raw = some out →
      crc32 out ≠ h.crc32 → ZipReader.read inflate data f = .err .crcError) ∧
    (h.compression_method = 8 → h.crc32 ≠ 0 → inflate raw = some out →
      crc32 out = h.crc32 → h.compressed_size ≤ out.length →
      ZipReader.read inflate data f = .ok (out.take h.compressed_size)) ∧
    (h.compression_method = 0 → ZipReader.read inflate data f = .ok raw) ∧
    (h.compression_method = 8 → h.crc32 = 0 → inflate raw = some out →
      h.compressed_size ≤ out.length →
      ZipReader.read inflate data f = .ok (out.take h.compressed_size)) := by
  refine ⟨?_, ?_, ?_, ?_⟩
  · intro hm hc hi hne
    simp [ZipReader.read, hlfh, ZipReader.extract_block, hraw,
      CompressionMethod.from_u16, hm, ZipReader.decompress, hi, hc, hne]
  · intro hm hc hi heq hlen
    simp [ZipReader.read, hlfh, ZipReader.extract_block, hraw,
      CompressionMethod.from_u16, hm, ZipReader.decompress, hi, heq, hlen]
  · intro hm
    simp [ZipReader.read, hlfh, ZipReader.extract_block, hraw,
      CompressionMethod.from_u16, hm]
  · intro hm hc hi hlen
    simp [ZipReader.read, hlfh, ZipReader.extract_block, hraw,
      CompressionMethod.from_u16, hm, ZipReader.decompress, hi, hc, hlen]

/-- Witness for C2: the mismatched-CRC Store archive extracts successfully via
the Store conjunct of the amended claim (the CRC is never consulted there). -/
theorem claim2_witness :
    ZipReader.read cexInflate storeData storeInfo = .ok [1, 2, 3] := by
  exact (claim2_crc_checked_only_for_nonzero_deflate cexInflate storeData storeInfo
    { lfhZero with crc32 := 0xDEADBEEF, compressed_size := 3, uncompressed_size := 3 }
    [1, 2, 3] [] [1, 2, 3] [1, 2, 3] (by decide) (by decide)).2.2.1 rfl

theorem lfh_write_long_name (h : LocalFileHeader) (hn : 65535 < h.file_name.len) :
    (LocalFileHeader.writeBytes h).2 = some .tooLongField ∧
    (LocalFileHeader.writeBytes h).1 ≠ [] := by
  constructor
  · simp [LocalFileHeader.writeBytes, ensure_u16_of_gt hn]
  · simp [LocalFileHeader.writeBytes, ensure_u16_of_gt hn, writeLeU32]

theorem lfh_write_long_extra (h : LocalFileHeader) (hn : h.file_name.len ≤ 65535)
    (he : 65535 < h.extra_field.length) :
    (LocalFileHeader.writeBytes h).2 = some .tooLongField ∧
    (LocalFileHeader.writeBytes h).1 ≠ [] := by
  constructor
  · simp [LocalFileHeader.writeBytes, ensure_u16_of_le hn, ensure_u16_of_gt he]
  · simp [LocalFileHeader.writeBytes, ensure_u16_of_le hn, ensure_u16_of_gt he, writeLeU32]

theorem cdh_write_long_name (h : CentralDirectoryHeader) (hn : 65535 < h.file_name.len) :
    (CentralDirectoryHeader.writeBytes h).2 = some .tooLongField ∧
    (CentralDirectoryHeader.writeBytes h).1 ≠ [] := by
  constructor
  · simp [CentralDirectoryHeader.writeBytes, ensure_u16_of_gt hn]
  · simp [CentralDirectoryHeader.writeBytes, ensure_u16_of_gt hn, writeLeU32]

theorem cdh_write_long_extra (h : CentralDirectoryHeader) (hn : h.file_name.len ≤ 65535)
    (he : 65535 < h.extra_field.length) :
    (CentralDirectoryHeader.writeBytes h).2 = some .tooLongField ∧
    (CentralDirectoryHeader.writeBytes h).1 ≠ [] := by
  constructor
  · simp [CentralDirectoryHeader.writeBytes, ensure_u16_of_le hn, ensure_u16_of_gt he]
  · simp [CentralDirectoryHeader.writeBytes, ensure_u16_of_le hn, ensure_u16_of_gt he,
      writeLeU32]

theorem cdh_write_long_comment (h : CentralDirectoryHeader)
    (hn : h.file_name.len ≤ 65535) (he : h.extra_field.length ≤ 65535)
    (hc : 65535 < h.file_comment.len) :
    (CentralDirectoryHeader.writeBytes h).2 = some .tooLongField ∧
    (CentralDirectoryHeader.writeBytes h).1 ≠ [] := by
  constructor
  · simp [CentralDirectoryHeader.writeBytes, ensure_u16_of_le hn, ensure_u16_of_le he,
      ensure_u16_of_gt hc]
  · simp [CentralDirectoryHeader.writeBytes, ensure_u16_of_le hn, ensure_u16_of_le he,
      ensure_u16_of_gt hc, writeLeU32]

theorem eocdr_write_long_comment (h : EndOfCentralDirectoryRecord)
    (hc : 65535 < h.comment.length) :
    (EndOfCentralDirectoryRecord.writeBytes h).2 = some .tooLongField ∧
    (EndOfCentralDirectoryRecord.writeBytes h).1 ≠ [] := by
  constructor
  · simp [EndOfCentralDirectoryRecord.writeBytes, ensure_u16_of_gt hc]
  · simp [EndOfCentralDirectoryRecord.writeBytes, ensure_u16_of_gt hc, writeLeU32]

theorem bigLfh_name_long : (65535 : Nat) < bigLfh.file_name.len := by
  simp only [bigLfh, MaybeUtf8.len, MaybeUtf8.asBytes, List.length_replicate]
  omega

/-- Claim C5 counterexample: writing a Local File Header with a 65536-byte
name fails with `TooLongField`, but the sink has already received the fixed
fields — output is not empty, contradicting "the sink receives no output at
all". -/
theorem claim5_counterexample_prefix_written :
    (LocalFileHeader.writeBytes bigLfh).2 = some .tooLongField ∧
    (LocalFileHeader.writeBytes bigLfh).1 ≠ [] :=
  lfh_write_long_name bigLfh bigLfh_name_long

/-- Claim C5 (amended): writing a record whose name, extra field or comment
exceeds 65535 bytes fails with `TooLongField` (checked via the `Option`-valued
`u16` conversion, never a truncating cast), but the fixed-size fields that
precede the offending 16-bit length prefix have already been written, so the
sink's output is non-empty on this failure. -/
theorem claim5_too_long_field_fixed_part_written :
    (∀ h : LocalFileHeader,
      65535 < h.file_name.len ∨ 65535 < h.extra_field.length →
      (LocalFileHeader.writeBytes h).2 = some .tooLongField ∧
      (LocalFileHeader.writeBytes h).1 ≠ []) ∧
    (∀ h : CentralDirectoryHeader,
      65535 < h.file_name.len ∨ 65535 < h.extra_field.length ∨
        65535 < h.file_comment.len →
      (CentralDirectoryHeader.writeBytes h).2 = some .tooLongField ∧
      (CentralDirectoryHeader.writeBytes h).1 ≠ []) ∧
    (∀ h : EndOfCentralDirectoryRecord, 65535 < h.comment.length →
      (EndOfCentralDirectoryRecord.writeBytes h).2 = some .tooLongField ∧
      (EndOfCentralDirectoryRecord.writeBytes h).1 ≠ []) := by
  refine ⟨?_, ?_, ?_⟩
  · intro h hlong
    by_cases hn : 65535 < h.file_name.len
    · exact lfh_write_long_name h hn
    · exact lfh_write_long_extra h (by omega) (by omega)
  · intro h hlong
    by_cases hn : 65535 < h.file_name.len
    · exact cdh_write_long_name h hn
    · by_cases hx : 65535 < h.extra_field.length
      · exact cdh_write_long_extra h (by omega) hx
      · exact cdh_write_long_comment h (by omega) (by omega) (by omega)
  · intro h hc
    exact eocdr_write_long_comment h hc

/-- Witness for C5: the three oversized records all fail their write with
`TooLongField` while leaving the already-written fixed prefix in the sink. -/
theorem claim5_witness :
    ((LocalFileHeader.writeBytes bigLfh).2 = some .tooLongField ∧
      (LocalFileHeader.writeBytes bigLfh).1 ≠ []) ∧
    ((CentralDirectoryHeader.writeBytes bigCdh).2 = some .tooLongField ∧
      (CentralDirectoryHeader.writeBytes bigCdh).1 ≠ []) ∧
    ((EndOfCentralDirectoryRecord.writeBytes bigEocdr).2 = some .tooLongField ∧
      (EndOfCentralDirectoryRecord.writeBytes bigEocdr).1 ≠ []) := by
  refine ⟨claim5_too_long_field_fixed_part_written.1 bigLfh (Or.inl ?_),
    claim5_too_long_field_fixed_part_written.2.1 bigCdh (Or.inr (Or.inr ?_)),
    claim5_too_long_field_fixed_part_written.2.2 bigEocdr ?_⟩
  · simp only [bigLfh, MaybeUtf8.len, MaybeUtf8.asBytes, List.length_replicate]
    omega
  · simp only [bigCdh, MaybeUtf8.len, MaybeUtf8.asBytes, List.length_replicate]
    omega
  · simp only [bigEocdr, List.length_replicate]
    omega

theorem countOk_cons (x : Except ZipError FileInfo) (l : List (Except ZipError FileInfo)) :
    countOk (x :: l) = (if isOkItem x then 1 else 0) + countOk l := by
  simp only [countOk, List.filter_cons]
  split <;> simp [Nat.add_comm]

theorem rawNext_cases (data : List Nat) (er : EndOfCentralDirectoryRecord)
    (s : RawFilesState) (it : Except ZipError FileInfo) (s2 : RawFilesState)
    (h : rawNext data er s = .yield it s2) :
    (isOkItem it = true ∧ s2.current_entry = s.current_entry + 1 ∧
      s.current_entry < er.total_entry_count) ∨
    (isOkItem it = false ∧ s2 = s) := by
  simp only [rawNext] at h
  split at h
  · split at h
    · split at h
      · cases h
        left
        exact ⟨rfl, rfl, by assumption⟩
      · cases h
    · cases h
      right
      exact ⟨rfl, rfl⟩
  · cases h

/-- Claim C7 (amended): a central-directory parse failure is surfaced as an
error item — never masked as end-of-sequence — but the iterator's cursor does
not advance on failure, so a subsequent poll re-attempts the same entry and
yields the same error again rather than stopping; the number of successfully
parsed (`Ok`) items, in any number of polls, never exceeds
`total_entry_count`. -/
theorem claim7_error_item_and_ok_bound :
    (∀ (data : List Nat) (er : EndOfCentralDirectoryRecord) (s : RawFilesState)
       (e : ZipError),
      s.current_entry < er.total_entry_count →
      CentralDirectoryHeader.readBytes (data.drop s.current_offset) = .error e →
      rawNext data er s = .yield (.error e) s) ∧
    (∀ (data : List Nat) (er : EndOfCentralDirectoryRecord) (s : RawFilesState)
       (n : Nat),
      countOk (runIter data er s n) ≤ er.total_entry_count - s.current_entry) := by
  constructor
  · intro data er s e hlt herr
    simp [rawNext, hlt, herr]
  · intro data er s n
    induction n generalizing s with
    | zero => simp [runIter, countOk]
    | succ k ih =>
      rw [runIter]
      cases hstep : rawNext data er s with
      | done => simp [countOk]
      | fatal => simp [countOk]
      | yield it s2 =>
        rcases rawNext_cases data er s it s2 hstep with ⟨hok, hentry, hlt⟩ | ⟨hnot, hs⟩
        · have hb := ih s2
          rw [countOk_cons, hok]
          simp only [if_true]
          omega
        · have hb := ih s2
          rw [countOk_cons, hnot, ← hs]
          simpa using hb

/-- Witness for C7: on the empty byte source with one declared entry, the parse
failure is yielded as an error item with the cursor unchanged, and three polls
still produce at most one `Ok` item. -/
theorem claim7_witness :
    rawNext [] er0 { current_entry := 0, current_offset := 0 } =
      .yield (.error .ioError) { current_entry := 0, current_offset := 0 } ∧
    countOk (runIter [] er0 { current_entry := 0, current_offset := 0 } 3) ≤ 1 := by
  constructor
  · exact claim7_error_item_and_ok_bound.1 [] er0
      { current_entry := 0, current_offset := 0 } .ioError (by decide) (by decide)
  · exact claim7_error_item_and_ok_bound.2 [] er0
      { current_entry := 0, current_offset := 0 } 3

theorem from_cdh_method (h : CentralDirectoryHeader)
    (hm : h.compression_method = 0 ∨ h.compression_method = 8) :
    ∃ fi, FileInfo.from_cdh h = some fi := by
  rcases hm with hm | hm <;> simp [FileInfo.from_cdh, hm]

theorem runIter_valid (data : List Nat) (er : EndOfCentralDirectoryRecord) :
    ∀ (n off e k : Nat), e + n = er.total_entry_count → validFrom data off n →
      (runIter data er { current_entry := e, current_offset := off } (n + k)).length = n ∧
      ∀ it ∈ runIter data er { current_entry := e, current_offset := off } (n + k),
        isOkItem it = true := by
  intro n
  induction n with
  | zero =>
    intro off e k he _
    have hnot : ¬ (e < er.total_entry_count) := by omega
    cases k with
    | zero => simp [runIter]
    | succ k2 => simp [runIter, rawNext, hnot]
  | succ m ih =>
    intro off e k he hv
    simp only [validFrom] at hv
    obtain ⟨h, rest, hok, hm, hv2⟩ := hv
    obtain ⟨fi, hfi⟩ := from_cdh_method h hm
    have hlt : e < er.total_entry_count := by omega
    have hstep : rawNext data er { current_entry := e, current_offset := off } =
        .yield (.ok fi)
          { current_entry := e + 1, current_offset := off + h.total_size } := by
      simp [rawNext, hlt, hok, hfi]
    have hfuel : m + 1 + k = (m + k) + 1 := by omega
    rw [hfuel, runIter, hstep]
    have hrec := ih (off + h.total_size) (e + 1) k (by omega) hv2
    constructor
    · simp [hrec.1]
    · intro it hit
      simp only [List.mem_cons] at hit
      rcases hit with rfl | hit
      · rfl
      · exact hrec.2 it hit

/-- Claim C8 (amended): for every archive whose central-directory-header
parses at the iterator's computed offsets all succeed *and* whose parsed
methods are all codes `FileInfo::from_cdh` accepts (0 or 8 — otherwise the
conversion panics), a full iteration started from `files_raw`'s initial cursor
produces exactly `total_entry_count` items, all of them `Ok` `FileInfo`
values. -/
theorem claim8_entry_count (data : List Nat) (er : EndOfCentralDirectoryRecord)
    (k : Nat) (hv : validFrom data er.central_directory_offset er.total_entry_count) :
    (runIter data er (filesRawInit er) (er.total_entry_count + k)).length =
      er.total_entry_count ∧
    ∀ it ∈ runIter data er (filesRawInit er) (er.total_entry_count + k),
      isOkItem it = true := by
  have hmain := runIter_valid data er er.total_entry_count
    er.central_directory_offset 0 k (by omega) hv
  simpa [filesRawInit] using hmain

/-- Witness for C8: the one-entry archive consisting of a single all-zero
Central Directory Header yields exactly one item on full iteration. -/
theorem claim8_witness :
    (runIter cdh0Bytes er0 (filesRawInit er0) (er0.total_entry_count + 0)).length =
      er0.total_entry_count := by
  refine (claim8_entry_count cdh0Bytes er0 0 ?_).1
  simp only [validFrom, er0]
  exact ⟨cdh0, [], by decide, Or.inl rfl, trivial⟩

/-- Claim C10 (amended): for every in-memory Local File Header, Central
Directory Header or End-of-Central-Directory record whose field values are
within format-representable ranges (numeric fields within their fixed widths,
variable fields at most 65535 bytes, UTF-8-flagged names/comments valid UTF-8)
and — forced by the counterexample — whose general-purpose flag, for Local
File Headers, has none of the five parse-rejected bits set, `write` followed
by `read` reproduces an equal record, with names and comments compared by
underlying byte content. -/
theorem claim10_roundtrip :
    (∀ h : LocalFileHeader, lfhRepr h → lfhFlagsOk h →
      (LocalFileHeader.writeBytes h).2 = none ∧
      LocalFileHeader.readBytes (LocalFileHeader.writeBytes h).1 =
        .ok (lfhNormalize h) [] ∧
      LocalFileHeader.eqv h (lfhNormalize h)) ∧
    (∀ h : CentralDirectoryHeader, cdhRepr h →
      (CentralDirectoryHeader.writeBytes h).2 = none ∧
      CentralDirectoryHeader.readBytes (CentralDirectoryHeader.writeBytes h).1 =
        .ok (cdhNormalize h, []) ∧
      CentralDirectoryHeader.eqv h (cdhNormalize h)) ∧
    (∀ h : EndOfCentralDirectoryRecord, eocdrRepr h →
      (EndOfCentralDirectoryRecord.writeBytes h).2 = none ∧
      EndOfCentralDirectoryRecord.readBytes (EndOfCentralDirectoryRecord.writeBytes h).1 =
        .ok (h, [])) :=
  ⟨lfh_roundtrip, cdh_roundtrip, eocdr_roundtrip⟩

/-- Witness for C10: the all-zero Local File Header, Central Directory Header
and end record all round-trip through their write and read routines. -/
theorem claim10_witness :
    LocalFileHeader.readBytes (LocalFileHeader.writeBytes lfhZero).1 =
      PResult.ok (lfhNormalize lfhZero) [] ∧
    CentralDirectoryHeader.readBytes (CentralDirectoryHeader.writeBytes cdh0).1 =
      .ok (cdhNormalize cdh0, []) ∧
    EndOfCentralDirectoryRecord.readBytes (EndOfCentralDirectoryRecord.writeBytes er0).1 =
      .ok (er0, []) := by
  refine ⟨(claim10_roundtrip.1 lfhZero ?_ ?_).2.1, (claim10_roundtrip.2.1 cdh0 ?_).2.1,
    (claim10_roundtrip.2.2 er0 ?_).2⟩
  · simp only [lfhRepr]
    decide
  · simp only [lfhFlagsOk]
    decide
  · simp only [cdhRepr]
    decide
  · simp only [eocdrRepr]
    decide
